import Mathlib

/-!
A verification development for the conversational session store of
`app/services/memory_service.py` (class `ConversationalMemoryService`).

The embedding is a shallow one: Redis is modelled as an association list of
cache entries, the SQLAlchemy-backed repository as an association list of
session rows, and `datetime.utcnow()` as a `Nat` parameter threaded through
each operation (one unit = one second; the session lifetime of 24 hours is
86400 units).  Every caller of the service in the repository passes a live
`db` handle, so the `db=None` default branches are not exercised and the
embedding takes the `if db:` branches.

`db.commit()` is modelled with SQLAlchemy's actual flush semantics:

* A session reconstructed from the cache by `_get_cached_session` is a
  brand-new `UserSession(...)` that is never `db.add`-ed — it is transient,
  so mutating it and committing persists nothing.  `Loaded` records whether
  the object a mutator works on is attached (`fromDb`) or transient
  (`fromCache`).
* The four open mappings are plain `Column(JSON)` (no `MutableList`/
  `MutableDict`, no `flag_modified`).  The flush includes a column only when
  its current value differs (by `==`) from the loaded snapshot.  The
  mutators mutate the loaded object in place and reassign the *same* object,
  whose snapshot was mutated along with it, so the column is skipped and the
  row keeps its stored value.  A column is actually written only when the
  reassigned object is fresh and value-different: the `or []` / `or {}`
  fallback on an empty loaded value, the `[-100:]` trim slice, and the
  wholesale `current_story_context` assignment.  `flushedHistory`,
  `flushedProgress` and `flushedAdaptations` encode exactly these rules
  (writing a value-equal object back is modelled as the identical write).
  `last_activity` is assigned a fresh `datetime`, so it always flushes for
  an attached session.
* `_cache_session` serializes `last_activity` as `None` when it is unset;
  redis-py rejects a `None` hash value with a `DataError`, which the
  surrounding `except` absorbs — so the cache write is a no-op whenever the
  session's `last_activity` is `None`.

Exact rational comparisons stand in for Python float comparisons
(`avg > 200` becomes `total > 200 * n`), which agree at every input relevant
here.
-/

namespace Minerva

/-- Values stored in the open string-keyed mappings (`metadata`,
`learning_progress`, `current_story_context`, `personality_adaptations`). -/
inductive Val where
  | i (n : Int)
  | s (str : String)
  | b (bv : Bool)
  deriving DecidableEq, Repr

/-- A Python dict is modelled as an association list (insertion order kept). -/
abbrev Dict := List (String × Val)

/-- Python `d[k] = v`: replace the value at an existing key in place,
otherwise append the binding. -/
def aInsert {α : Type} (k : String) (v : α) : List (String × α) → List (String × α)
  | [] => [(k, v)]
  | (k', v') :: rest => if k' = k then (k, v) :: rest else (k', v') :: aInsert k v rest

/-- Python `del d[k]` (first binding removed; maps in the model are keyed
uniquely by construction). -/
def aErase {α : Type} (k : String) : List (String × α) → List (String × α)
  | [] => []
  | (k', v') :: rest => if k' = k then rest else (k', v') :: aErase k rest

/-- Key lookup in an association list (Python `d.get(k)` / `d[k]`). -/
def aLookup {α : Type} (k : String) : List (String × α) → Option α
  | [] => none
  | (k', v) :: rest => if k' = k then some v else aLookup k rest

/-- Python `dict.update`: `old.update(new)` assigns every binding of `new`
into `old`, later assignments winning. -/
def dictUpdate (old new : Dict) : Dict :=
  new.foldl (fun acc kv => aInsert kv.1 kv.2 acc) old

/-- One conversation turn, as built by `add_conversation_message`. -/
structure Message where
  role : String
  content : String
  timestamp : Nat
  metadata : Dict
  deriving DecidableEq, Repr

/-- The `UserSession` row (`app/models/user.py`).  `createdAt` is `none` for
objects reconstructed from the cache, which does not serialize it. -/
structure UserSession where
  userId : Int
  sessionToken : String
  conversationHistory : List Message
  currentStoryContext : Dict
  learningProgress : Dict
  personalityAdaptations : Dict
  createdAt : Option Nat
  lastActivity : Option Nat
  expiresAt : Nat
  deriving DecidableEq, Repr

/-- The fields `_cache_session` serializes into the Redis hash (note:
`created_at` and the token are not stored). -/
structure CachedSession where
  userId : Int
  conversationHistory : List Message
  currentStoryContext : Dict
  learningProgress : Dict
  personalityAdaptations : Dict
  lastActivity : Option Nat
  expiresAt : Nat
  deriving DecidableEq, Repr

/-- A Redis hash at key `session:{token}`.  `hset` on a missing key creates a
hash holding only the `conversation_history` field (`histOnly`). -/
inductive CacheEntry where
  | full (c : CachedSession)
  | histOnly (h : List Message)
  deriving DecidableEq, Repr

/-- Combined state of the two backends.  `redisUp` is whether
`self.redis_client` is available; a client whose every call raises behaves
identically because every cache failure is caught and absorbed. -/
structure MemState where
  repo : List (String × UserSession)
  cache : List (String × CacheEntry)
  redisUp : Bool
  deriving DecidableEq, Repr

/-- `self.max_conversation_length`. -/
def maxConversationLength : Nat := 100

/-- `self.personality_analysis_threshold`. -/
def personalityAnalysisThreshold : Nat := 10

/-- 24 hours, in seconds (`timedelta(hours=24)`, and the cache TTL 86400). -/
def sessionLifetime : Nat := 86400

/-- Python `history[-n:]` for `n > 0`: the suffix of the last `n` elements. -/
def lastN {α : Type} (n : Nat) (l : List α) : List α :=
  l.drop (l.length - n)

/-- The trim step shared by `add_conversation_message` and
`_add_message_to_cache`: keep only the most recent `max_conversation_length`
entries when the bound is exceeded. -/
def trimHist (l : List Message) : List Message :=
  if l.length > maxConversationLength then lastN maxConversationLength l else l

/-- Serialization performed by `_cache_session`. -/
def toCached (s : UserSession) : CachedSession :=
  { userId := s.userId
    conversationHistory := s.conversationHistory
    currentStoryContext := s.currentStoryContext
    learningProgress := s.learningProgress
    personalityAdaptations := s.personalityAdaptations
    lastActivity := s.lastActivity
    expiresAt := s.expiresAt }

/-- Deserialization performed by `_get_cached_session` (the `UserSession`
constructor is not given `created_at`, so it is `none`). -/
def ofCached (token : String) (c : CachedSession) : UserSession :=
  { userId := c.userId
    sessionToken := token
    conversationHistory := c.conversationHistory
    currentStoryContext := c.currentStoryContext
    learningProgress := c.learningProgress
    personalityAdaptations := c.personalityAdaptations
    createdAt := none
    lastActivity := c.lastActivity
    expiresAt := c.expiresAt }

/-- The SQLAlchemy state of the session object `get_session` hands back:
`fromDb` for an object loaded by the repository query (attached, so
`db.commit()` flushes its changes), `fromCache` for the transient
`UserSession(...)` built by `_get_cached_session` (never `db.add`-ed, so
`db.commit()` persists nothing for it). -/
inductive Loaded where
  | fromDb (s : UserSession)
  | fromCache (s : UserSession)
  deriving DecidableEq, Repr

/-- The session object itself, forgetting its attachment state. -/
def Loaded.session : Loaded → UserSession
  | Loaded.fromDb s => s
  | Loaded.fromCache s => s

/-- The `conversation_history` value an attached commit leaves in the row.
`conversation_history = session.conversation_history or []` yields a fresh
list only when the loaded value is empty; the `[-100:]` trim also slices a
fresh list.  In those cases the reassigned object differs in value from the
loaded snapshot and the column flushes; otherwise the same in-place-mutated
object is skipped and the row keeps its stored history. -/
def flushedHistory (loadedHist : List Message) (message : Message) : List Message :=
  if loadedHist.isEmpty then loadedHist ++ [message]
  else if (loadedHist ++ [message]).length > maxConversationLength then
    lastN maxConversationLength (loadedHist ++ [message])
  else loadedHist

/-- The `learning_progress` value an attached commit leaves in the row:
`or {}` makes a fresh dict only when the loaded mapping is empty; an
in-place `dict.update` on a non-empty loaded mapping is never flushed. -/
def flushedProgress (loadedLp p : Dict) : Dict :=
  if loadedLp.isEmpty then dictUpdate [] p else loadedLp

/-- The `personality_adaptations` value an attached commit leaves in the
row, with the same fresh-versus-in-place rule as `flushedProgress`. -/
def flushedAdaptations (loadedPa adaptations : Dict) : Dict :=
  if loadedPa.isEmpty then dictUpdate [] adaptations else loadedPa

/-- The row an attached `add_conversation_message` commit leaves in the
repository: history per `flushedHistory`, `last_activity` stamped. -/
def addFlushedRow (s : UserSession) (role content : String) (metadata : Dict)
    (now : Nat) : UserSession :=
  { s with
     conversationHistory := flushedHistory s.conversationHistory
       { role := role, content := content, timestamp := now, metadata := metadata }
     lastActivity := some now }

/-- The row an attached `update_learning_progress` commit leaves in the
repository: progress per `flushedProgress`, `last_activity` stamped. -/
def lpFlushedRow (s : UserSession) (p : Dict) (now : Nat) : UserSession :=
  { s with learningProgress := flushedProgress s.learningProgress p
           lastActivity := some now }

/-- The row an attached `analyze_personality_adaptations` commit leaves in
the repository: adaptations per `flushedAdaptations`, `last_activity` (and
every other column) untouched. -/
def paFlushedRow (s : UserSession) (adaptations : Dict) : UserSession :=
  { s with personalityAdaptations := flushedAdaptations s.personalityAdaptations adaptations }

/-- `_cache_session`: best-effort overwrite of the whole cache entry
(`hmset` of every serialized field, then `expire`).  A no-op when the client
is absent; failures are caught, so a failing backend is also a no-op — in
particular, serializing an unset `last_activity` puts `None` in the hash
mapping, redis-py raises `DataError` on it, and the write is absorbed. -/
def cacheSession (token : String) (s : UserSession) (st : MemState) : MemState :=
  if st.redisUp then
    match s.lastActivity with
    | none => st
    | some _ =>
      { st with cache := aInsert token (CacheEntry.full (toCached s)) st.cache }
  else st

/-- `_get_cached_session`: returns the reconstructed session on a fresh hit;
deletes the key and misses when `expires_at <= utcnow()`; a hash lacking the
`expires_at` field raises `KeyError`, which is caught and reported as a miss.
Returns the (possibly updated) state alongside the result. -/
def getCachedSession (token : String) (now : Nat) (st : MemState) :
    Option UserSession × MemState :=
  if st.redisUp then
    match aLookup token st.cache with
    | none => (none, st)
    | some (CacheEntry.histOnly _) => (none, st)
    | some (CacheEntry.full c) =>
      if c.expiresAt ≤ now then
        (none, { st with cache := aErase token st.cache })
      else
        (some (ofCached token c), st)
  else (none, st)

/-- `_add_message_to_cache`: `hget` the cached history (missing field reads
as empty), append the message, trim, `hset` it back — a merge into whatever
entry is present (creating a history-only hash when none is). -/
def addMessageToCache (token : String) (message : Message) (st : MemState) :
    MemState :=
  if st.redisUp then
    let current : List Message :=
      match aLookup token st.cache with
      | some (CacheEntry.full c) => c.conversationHistory
      | some (CacheEntry.histOnly h) => h
      | none => []
    let h' := trimHist (current ++ [message])
    let entry : CacheEntry :=
      match aLookup token st.cache with
      | some (CacheEntry.full c) => CacheEntry.full { c with conversationHistory := h' }
      | _ => CacheEntry.histOnly h'
    { st with cache := aInsert token entry st.cache }
  else st

/-- The `UserSession(...)` row built by `create_session`: empty history,
context, progress and adaptations, `expires_at = now + 24h`.  `last_activity`
is `NULL` at insert (its column only has an `onupdate` default); `created_at`
is the insert time. -/
def newSession (userId : Int) (token : String) (now : Nat) : UserSession :=
  { userId := userId
    sessionToken := token
    conversationHistory := []
    currentStoryContext := []
    learningProgress := []
    personalityAdaptations := []
    createdAt := some now
    lastActivity := none
    expiresAt := now + sessionLifetime }

/-- `create_session`: the fresh `uuid4` token is supplied as a parameter
(resolving the only nondeterminism), persisted, then cached best-effort. -/
def create_session (userId : Int) (token : String) (now : Nat) (st : MemState) :
    String × MemState :=
  let s := newSession userId token now
  let st1 := { st with repo := aInsert token s st.repo }
  (token, cacheSession token s st1)

/-- `get_session`, with the attachment state of the returned object made
explicit: a cache hit returns the transient reconstruction; a miss falls
back to the repository query filtered by `expires_at > utcnow()`, whose
result is attached, with a best-effort cache fill. -/
def getSessionL (token : String) (now : Nat) (st : MemState) :
    Option Loaded × MemState :=
  match getCachedSession token now st with
  | (some s, st1) => (some (Loaded.fromCache s), st1)
  | (none, st1) =>
    match aLookup token st1.repo with
    | some s =>
      if s.expiresAt > now then (some (Loaded.fromDb s), cacheSession token s st1)
      else (none, st1)
    | none => (none, st1)

/-- `get_session` as its callers see it: the session object alone. -/
def get_session (token : String) (now : Nat) (st : MemState) :
    Option UserSession × MemState :=
  let (r, st1) := getSessionL token now st
  (r.map Loaded.session, st1)

/-- `add_conversation_message` (with `db` supplied, as every caller does):
build the message, load the session, append + trim, stamp `last_activity`,
`db.commit()` (which flushes the row only for an attached session, and the
history column only per `flushedHistory`), overwrite the cache entry with
the in-memory object — and then additionally merge the same message into
the cached history once more. -/
def add_conversation_message (token role content : String) (metadata : Dict)
    (now : Nat) (st : MemState) : MemState :=
  let message : Message :=
    { role := role, content := content, timestamp := now, metadata := metadata }
  let st2 :=
    match getSessionL token now st with
    | (none, st1) => st1
    | (some l, st1) =>
      let s := l.session
      let hist := trimHist (s.conversationHistory ++ [message])
      let s' := { s with conversationHistory := hist, lastActivity := some now }
      let st' :=
        match l with
        | Loaded.fromCache _ => st1
        | Loaded.fromDb _ =>
          { st1 with repo := aInsert token (addFlushedRow s role content metadata now) st1.repo }
      cacheSession token s' st'
  addMessageToCache token message st2

/-- `get_conversation_history`: note Python's `if limit:` — a limit of `0` is
falsy and is treated exactly like no limit at all. -/
def get_conversation_history (token : String) (limit : Option Nat) (now : Nat)
    (st : MemState) : List Message × MemState :=
  match get_session token now st with
  | (none, st1) => ([], st1)
  | (some s, st1) =>
    let history := s.conversationHistory
    match limit with
    | some l => if l ≠ 0 then (lastN l history, st1) else (history, st1)
    | none => (history, st1)

/-- `update_learning_progress`: key-wise `dict.update` into the existing
progress mapping, stamp `last_activity`, commit (flushing the progress
column only per `flushedProgress`), overwrite cache with the in-memory
object. -/
def update_learning_progress (token : String) (progressData : Dict) (now : Nat)
    (st : MemState) : MemState :=
  match getSessionL token now st with
  | (none, st1) => st1
  | (some l, st1) =>
    let s := l.session
    let s' := { s with learningProgress := dictUpdate s.learningProgress progressData
                       lastActivity := some now }
    let st' :=
      match l with
      | Loaded.fromCache _ => st1
      | Loaded.fromDb _ =>
        { st1 with repo := aInsert token (lpFlushedRow s progressData now) st1.repo }
    cacheSession token s' st'

/-- `update_story_context`: wholesale replacement of the story context,
stamp `last_activity`, commit, overwrite cache.  The caller's context is a
fresh object, so for an attached session the column flushes (a value-equal
reassignment would be skipped, which is indistinguishable from writing the
same value back); a transient session persists nothing. -/
def update_story_context (token : String) (storyContext : Dict) (now : Nat)
    (st : MemState) : MemState :=
  match getSessionL token now st with
  | (none, st1) => st1
  | (some l, st1) =>
    let s := l.session
    let s' := { s with currentStoryContext := storyContext, lastActivity := some now }
    let st' :=
      match l with
      | Loaded.fromCache _ => st1
      | Loaded.fromDb _ => { st1 with repo := aInsert token s' st1.repo }
    cacheSession token s' st'

/-- `hasPfx n h`: the list `n` is an initial segment of `h`. -/
def hasPfx : List Char → List Char → Bool
  | [], _ => true
  | _ :: _, [] => false
  | a :: as, b :: bs => a = b && hasPfx as bs

/-- Python `needle in haystack` on character lists: some suffix of the
haystack starts with the needle. -/
def occursIn (needle : List Char) : List Char → Bool
  | [] => hasPfx needle []
  | c :: rest => hasPfx needle (c :: rest) || occursIn needle rest

/-- Python `s.lower()` (ASCII-faithful). -/
def lowerChars (s : String) : List Char := s.data.map Char.toLower

/-- `sum(1 for word in words if word in content.lower())`, summed over the
messages: each word of the set counts at most once per message. -/
def wordSetCount (words : List String) (msgs : List Message) : Nat :=
  (msgs.map (fun m =>
    (words.filter (fun w => occursIn w.data (lowerChars m.content))).length)).sum

def positiveWords : List String :=
  ["great", "awesome", "love", "excellent", "amazing", "fantastic"]

def negativeWords : List String :=
  ["difficult", "hard", "confused", "stuck", "frustrated", "challenging"]

def visualWords : List String :=
  ["see", "show", "picture", "diagram", "visual", "image"]

def analyticalWords : List String :=
  ["analyze", "break down", "step by step", "detailed", "systematic"]

def practicalWords : List String :=
  ["example", "practice", "try", "hands-on", "apply", "use"]

/-- The numeric `response_time` of a message's metadata, when present. -/
def responseTime (m : Message) : Option Int :=
  match aLookup "response_time" m.metadata with
  | some (Val.i n) => some n
  | _ => none

/-- `_analyze_interaction_patterns`.  Float comparisons on means are embedded
as exact cross-multiplied integer comparisons (the divisor, the number of
analyzed messages, is positive on every path reaching a comparison). -/
def analyzeInteractionPatterns (userMessages : List Message) (now : Nat) : Dict :=
  if userMessages.isEmpty then [] else
  let totalMessages := userMessages.length
  let totalLength := (userMessages.map (fun m => m.content.length)).sum
  let commPref : String :=
    if totalLength > 200 * totalMessages then "detailed"
    else if totalLength < 50 * totalMessages then "concise"
    else "balanced"
  let questionCount :=
    (userMessages.filter (fun m => occursIn "?".data m.content.data)).length
  let engagement : String :=
    if 10 * questionCount > 3 * totalMessages then "inquisitive"
    else if 10 * questionCount < totalMessages then "declarative"
    else "balanced"
  let positiveCount := wordSetCount positiveWords userMessages
  let negativeCount := wordSetCount negativeWords userMessages
  let tone : String :=
    if positiveCount > negativeCount * 2 then "optimistic"
    else if negativeCount > positiveCount * 2 then "needs_support"
    else "neutral"
  let visualScore := wordSetCount visualWords userMessages
  let analyticalScore := wordSetCount analyticalWords userMessages
  let practicalScore := wordSetCount practicalWords userMessages
  let maxScore := max visualScore (max analyticalScore practicalScore)
  let learningPart : Dict :=
    if maxScore > 0 then
      [("inferred_learning_style", Val.s
        (if visualScore = maxScore then "visual"
         else if analyticalScore = maxScore then "analytical"
         else "practical"))]
    else []
  let validTimes := userMessages.filterMap responseTime
  let pacingPart : Dict :=
    if validTimes.isEmpty then []
    else
      let total := validTimes.sum
      let n : Int := validTimes.length
      [("pacing_preference", Val.s
        (if total < 5 * n then "fast"
         else if total > 30 * n then "thoughtful"
         else "moderate"))]
  [("communication_preference", Val.s commPref),
   ("engagement_style", Val.s engagement),
   ("emotional_tone", Val.s tone)]
  ++ learningPart ++ pacingPart
  ++ [("analysis_timestamp", Val.i now),
      ("message_count_analyzed", Val.i totalMessages)]

/-- The analyzed window: `role == "user"` messages among the last 20 history
entries. -/
def userWindow (history : List Message) : List Message :=
  (lastN 20 history).filter (fun m => m.role = "user")

/-- `analyze_personality_adaptations` (with `db` supplied): load the session,
skip below the 10-message threshold or when the window has no user message,
otherwise analyze and merge the record into the in-memory adaptations; the
commit flushes the column only for an attached session whose stored mapping
was empty (`flushedAdaptations`), and `last_activity` is never touched. -/
def analyze_personality_adaptations (token : String) (now : Nat) (st : MemState) :
    Dict × MemState :=
  match getSessionL token now st with
  | (none, st1) => ([], st1)
  | (some l, st1) =>
    let s := l.session
    let history := s.conversationHistory
    if history.length < personalityAnalysisThreshold then
      (s.personalityAdaptations, st1)
    else
      let userMessages := userWindow history
      if userMessages.isEmpty then (s.personalityAdaptations, st1)
      else
        let adaptations := analyzeInteractionPatterns userMessages now
        if adaptations.isEmpty then (adaptations, st1)
        else
          let s' := { s with personalityAdaptations :=
                        dictUpdate s.personalityAdaptations adaptations }
          let st' :=
            match l with
            | Loaded.fromCache _ => st1
            | Loaded.fromDb _ =>
              { st1 with repo := aInsert token (paFlushedRow s adaptations) st1.repo }
          (adaptations, cacheSession token s' st')

/-- `_recommend_story_preferences`. -/
def recommendStoryPreferences (adaptations : Dict) : Dict :=
  let base : Dict :=
    [("pace", Val.s "moderate"), ("detail_level", Val.s "balanced"),
     ("interaction_frequency", Val.s "moderate")]
  let commPref := (aLookup "communication_preference" adaptations).getD (Val.s "balanced")
  let p1 :=
    if commPref = Val.s "detailed" then
      aInsert "interaction_frequency" (Val.s "high") (aInsert "detail_level" (Val.s "high") base)
    else if commPref = Val.s "concise" then
      aInsert "pace" (Val.s "fast") (aInsert "detail_level" (Val.s "low") base)
    else base
  let engagement := (aLookup "engagement_style" adaptations).getD (Val.s "balanced")
  let p2 :=
    if engagement = Val.s "inquisitive" then aInsert "interaction_frequency" (Val.s "high") p1
    else if engagement = Val.s "declarative" then aInsert "interaction_frequency" (Val.s "low") p1
    else p1
  let pacing := (aLookup "pacing_preference" adaptations).getD (Val.s "moderate")
  if pacing = Val.s "fast" then aInsert "pace" (Val.s "fast") p2
  else if pacing = Val.s "thoughtful" then
    aInsert "detail_level" (Val.s "high") (aInsert "pace" (Val.s "slow") p2)
  else p2

/-- `_recommend_interaction_style`. -/
def recommendInteractionStyle (adaptations : Dict) : Dict :=
  let base : Dict :=
    [("tone", Val.s "encouraging"), ("explanation_depth", Val.s "moderate"),
     ("question_frequency", Val.s "balanced")]
  let tone := (aLookup "emotional_tone" adaptations).getD (Val.s "neutral")
  let s1 :=
    if tone = Val.s "needs_support" then
      aInsert "explanation_depth" (Val.s "detailed") (aInsert "tone" (Val.s "supportive") base)
    else if tone = Val.s "optimistic" then
      aInsert "question_frequency" (Val.s "high") (aInsert "tone" (Val.s "enthusiastic") base)
    else base
  match aLookup "inferred_learning_style" adaptations with
  | some (Val.s "visual") => aInsert "visual_elements" (Val.s "high") s1
  | some (Val.s "analytical") =>
    aInsert "logical_structure" (Val.s "high") (aInsert "explanation_depth" (Val.s "detailed") s1)
  | some (Val.s "practical") =>
    aInsert "hands_on_activities" (Val.s "high") (aInsert "examples" (Val.s "high") s1)
  | _ => s1

/-- Python truthiness of an optional mapping value (`dict.get` returning
`None` when absent). -/
def pyTruthy : Option Val → Bool
  | some (Val.b bv) => bv
  | some (Val.i n) => n ≠ 0
  | some (Val.s str) => str ≠ ""
  | none => false

/-- `_recommend_content_delivery`. -/
def recommendContentDelivery (adaptations learningProgress : Dict) : Dict :=
  let base : Dict :=
    [("chunk_size", Val.s "medium"), ("repetition_frequency", Val.s "moderate"),
     ("complexity_progression", Val.s "gradual")]
  let d1 :=
    if pyTruthy (aLookup "struggles_identified" learningProgress) then
      aInsert "repetition_frequency" (Val.s "high") (aInsert "chunk_size" (Val.s "small") base)
    else base
  let d2 :=
    if pyTruthy (aLookup "fast_learner_indicators" learningProgress) then
      aInsert "complexity_progression" (Val.s "accelerated") (aInsert "chunk_size" (Val.s "large") d1)
    else d1
  let commPref := (aLookup "communication_preference" adaptations).getD (Val.s "balanced")
  if commPref = Val.s "concise" then aInsert "chunk_size" (Val.s "small") d2
  else if commPref = Val.s "detailed" then aInsert "chunk_size" (Val.s "large") d2
  else d2

/-- `_recommend_engagement_strategies`. -/
def recommendEngagementStrategies (adaptations : Dict)
    (conversationHistory : List Message) : List String :=
  let engagement := (aLookup "engagement_style" adaptations).getD (Val.s "balanced")
  let s1 : List String :=
    if engagement = Val.s "inquisitive" then
      ["Include more interactive questions",
       "Provide opportunities for exploration",
       "Encourage hypothesis formation"]
    else if engagement = Val.s "declarative" then
      ["Provide clear, definitive explanations",
       "Use more direct instruction",
       "Include summary statements"]
    else []
  let tone := (aLookup "emotional_tone" adaptations).getD (Val.s "neutral")
  let s2 : List String :=
    if tone = Val.s "needs_support" then
      ["Provide more encouragement",
       "Break down complex concepts further",
       "Celebrate small wins"]
    else if tone = Val.s "optimistic" then
      ["Introduce more challenges",
       "Provide advanced extensions",
       "Encourage peer collaboration"]
    else []
  let s3 : List String :=
    if conversationHistory.length > 10 then
      let recent := lastN 10 conversationHistory
      if (recent.filter (fun m => m.role = "user")).all (fun m => m.content.length < 50)
      then ["Try more engaging, open-ended questions"]
      else []
    else []
  s1 ++ s2 ++ s3

/-- The four recommendation groups returned by
`get_personalized_recommendations` on a found session. -/
structure RecBundle where
  storyPreferences : Dict
  interactionStyle : Dict
  contentDelivery : Dict
  engagementStrategies : List String
  deriving DecidableEq, Repr

/-- `get_personalized_recommendations` (`{}` on a missing session is
modelled as `none`). -/
def get_personalized_recommendations (token : String) (now : Nat) (st : MemState) :
    Option RecBundle × MemState :=
  match get_session token now st with
  | (none, st1) => (none, st1)
  | (some s, st1) =>
    let adaptations := s.personalityAdaptations
    let progress := s.learningProgress
    let history := s.conversationHistory
    (some { storyPreferences := recommendStoryPreferences adaptations
            interactionStyle := recommendInteractionStyle adaptations
            contentDelivery := recommendContentDelivery adaptations progress
            engagementStrategies := recommendEngagementStrategies adaptations history },
     st1)

/-- The externally visible operations of the session store (§6 of the spec),
with the fresh token of `createSession` supplied as data. -/
inductive Op where
  | create (userId : Int) (tok : String)
  | getSess (tok : String)
  | append (tok role content : String) (metadata : Dict)
  | history (tok : String) (limit : Option Nat)
  | updateProgress (tok : String) (p : Dict)
  | updateContext (tok : String) (c : Dict)
  | analyze (tok : String)
  | recommend (tok : String)
  deriving DecidableEq, Repr

/-- Results of the operations. -/
inductive OpOut where
  | tok (t : String)
  | sess (s : Option UserSession)
  | unit
  | hist (h : List Message)
  | dict (d : Dict)
  | recs (r : Option RecBundle)
  deriving DecidableEq, Repr

/-- Dispatch one operation against the service. -/
def runOp : Op → Nat → MemState → OpOut × MemState
  | Op.create u t, now, st =>
    let (tk, st') := create_session u t now st; (OpOut.tok tk, st')
  | Op.getSess t, now, st =>
    let (s, st') := get_session t now st; (OpOut.sess s, st')
  | Op.append t r c m, now, st =>
    (OpOut.unit, add_conversation_message t r c m now st)
  | Op.history t l, now, st =>
    let (h, st') := get_conversation_history t l now st; (OpOut.hist h, st')
  | Op.updateProgress t p, now, st =>
    (OpOut.unit, update_learning_progress t p now st)
  | Op.updateContext t c, now, st =>
    (OpOut.unit, update_story_context t c now st)
  | Op.analyze t, now, st =>
    let (d, st') := analyze_personality_adaptations t now st; (OpOut.dict d, st')
  | Op.recommend t, now, st =>
    let (r, st') := get_personalized_recommendations t now st; (OpOut.recs r, st')

/-- Run a timestamped list of operations, collecting the outputs. -/
def runOps : List (Op × Nat) → MemState → List OpOut × MemState
  | [], st => ([], st)
  | (op, now) :: rest, st =>
    let (o, st') := runOp op now st
    let (os, st'') := runOps rest st'
    (o :: os, st'')

/-- The repository map alone, for the cache-free reference semantics. -/
abbrev RepoMap := List (String × UserSession)

/-- Cache-free projection of `get_session`: the repository query filtered by
`expires_at > utcnow()`. -/
def refGetSession (token : String) (now : Nat) (repo : RepoMap) :
    Option UserSession :=
  match aLookup token repo with
  | some s => if s.expiresAt > now then some s else none
  | none => none

/-- Cache-free projection of the service: the `db` branches of each
operation with every Redis interaction stripped out, under the same flush
semantics as the program (sessions are always attached here, and the JSON
columns flush only per `flushedHistory` / `flushedProgress` /
`flushedAdaptations`). -/
def refRunOp : Op → Nat → RepoMap → OpOut × RepoMap
  | Op.create u t, now, repo =>
    (OpOut.tok t, aInsert t (newSession u t now) repo)
  | Op.getSess t, now, repo =>
    (OpOut.sess (refGetSession t now repo), repo)
  | Op.append t r c m, now, repo =>
    (OpOut.unit,
     match refGetSession t now repo with
     | none => repo
     | some s => aInsert t (addFlushedRow s r c m now) repo)
  | Op.history t l, now, repo =>
    (OpOut.hist
      (match refGetSession t now repo with
       | none => []
       | some s =>
         match l with
         | some k => if k ≠ 0 then lastN k s.conversationHistory else s.conversationHistory
         | none => s.conversationHistory),
     repo)
  | Op.updateProgress t p, now, repo =>
    (OpOut.unit,
     match refGetSession t now repo with
     | none => repo
     | some s => aInsert t (lpFlushedRow s p now) repo)
  | Op.updateContext t c, now, repo =>
    (OpOut.unit,
     match refGetSession t now repo with
     | none => repo
     | some s =>
       aInsert t { s with currentStoryContext := c, lastActivity := some now } repo)
  | Op.analyze t, now, repo =>
    match refGetSession t now repo with
    | none => (OpOut.dict [], repo)
    | some s =>
      if s.conversationHistory.length < personalityAnalysisThreshold then
        (OpOut.dict s.personalityAdaptations, repo)
      else
        let userMessages := userWindow s.conversationHistory
        if userMessages.isEmpty then (OpOut.dict s.personalityAdaptations, repo)
        else
          let adaptations := analyzeInteractionPatterns userMessages now
          if adaptations.isEmpty then (OpOut.dict adaptations, repo)
          else
            (OpOut.dict adaptations,
             aInsert t (paFlushedRow s adaptations) repo)
  | Op.recommend t, now, repo =>
    (OpOut.recs
      (match refGetSession t now repo with
       | none => none
       | some s =>
         some { storyPreferences := recommendStoryPreferences s.personalityAdaptations
                interactionStyle := recommendInteractionStyle s.personalityAdaptations
                contentDelivery := recommendContentDelivery s.personalityAdaptations s.learningProgress
                engagementStrategies := recommendEngagementStrategies s.personalityAdaptations s.conversationHistory }),
     repo)

/-- The repository holds no live copy for `tok`: the row is absent or
already expired at `now`. -/
def repoExpiredAt (repo : List (String × UserSession)) (tok : String) (now : Nat) :
    Bool :=
  match aLookup tok repo with
  | some s => decide (s.expiresAt ≤ now)
  | none => true

/-- The cache holds no live copy for `tok`: the entry is absent or is a full
entry already expired at `now` (a history-only hash is a live artifact and is
excluded). -/
def cacheExpiredAt (cache : List (String × CacheEntry)) (tok : String) (now : Nat) :
    Bool :=
  match aLookup tok cache with
  | some (CacheEntry.full c) => decide (c.expiresAt ≤ now)
  | some (CacheEntry.histOnly _) => false
  | none => true

/-- Neither backend holds a live copy for `tok` at `now`. -/
def notFoundAt (st : MemState) (tok : String) (now : Nat) : Bool :=
  repoExpiredAt st.repo tok now && cacheExpiredAt st.cache tok now

/-- The two backends agree on `tok`: the repository holds `s` and, whenever
the cache client is up, the cache entry is absent or is exactly the
serialized copy of `s`. -/
def consistentAt (st : MemState) (tok : String) (s : UserSession) : Prop :=
  aLookup tok st.repo = some s ∧
  (st.redisUp = true →
    aLookup tok st.cache = none ∨
    aLookup tok st.cache = some (CacheEntry.full (toCached s)))

/-- The session-payload fields that survive a round trip through the cache
(everything except `sessionToken` and `createdAt`). -/
def payloadEq (u s : UserSession) : Prop :=
  u.userId = s.userId ∧ u.conversationHistory = s.conversationHistory ∧
  u.currentStoryContext = s.currentStoryContext ∧
  u.learningProgress = s.learningProgress ∧
  u.personalityAdaptations = s.personalityAdaptations ∧
  u.lastActivity = s.lastActivity ∧ u.expiresAt = s.expiresAt

/-- Reading the conversation history field of whatever cache entry exists. -/
def cacheHistory (st : MemState) (tok : String) : Option (List Message) :=
  match aLookup tok st.cache with
  | some (CacheEntry.full c) => some c.conversationHistory
  | some (CacheEntry.histOnly h) => some h
  | none => none

/-- One `appendMessage` request: role, content, metadata and the wall-clock
instant at which the call runs. -/
structure AppendInput where
  role : String
  content : String
  metadata : Dict
  time : Nat
  deriving DecidableEq, Repr

/-- Run a sequence of `add_conversation_message` calls in order. -/
def appendAll (tok : String) (ins : List AppendInput) (st : MemState) : MemState :=
  ins.foldl
    (fun acc i => add_conversation_message tok i.role i.content i.metadata i.time acc) st

/-- The messages those calls construct, in call order. -/
def msgsOf (ins : List AppendInput) : List Message :=
  ins.map (fun i =>
    { role := i.role, content := i.content, timestamp := i.time, metadata := i.metadata })

/-- Modelled from the claim's wording (C7): the number of starting positions
at which `needle` occurs in the haystack. -/
def occCount (needle : List Char) : List Char → Nat
  | [] => 0
  | c :: rest => (if hasPfx needle (c :: rest) then 1 else 0) + occCount needle rest

/-- Modelled from the claim's wording (C7): total substring occurrences of
the given words across the analyzed messages, case-insensitively. -/
def specOccTotal (words : List String) (msgs : List Message) : Nat :=
  (msgs.map (fun m => (words.map (fun w => occCount w.data (lowerChars m.content))).sum)).sum

/-- A minimal session row used by concrete scenarios. -/
def mkSess (hist : List Message) (exp : Nat) : UserSession :=
  { userId := 1, sessionToken := "t", conversationHistory := hist,
    currentStoryContext := [], learningProgress := [], personalityAdaptations := [],
    createdAt := some 0, lastActivity := some 0, expiresAt := exp }

/-- Empty state with the cache client up. -/
def exUp : MemState := { repo := [], cache := [], redisUp := true }

/-- The message appended in the single-append scenarios. -/
def exMsg : Message := { role := "user", content := "hi", timestamp := 1, metadata := [] }

/-- Create a session and append one message, cache up. -/
def exC1State : MemState :=
  add_conversation_message "t" "user" "hi" [] 1 (create_session 1 "t" 0 exUp).2

/-- 101 appends at times 1..101, for the history-bound scenario. -/
def exC2Inputs : List AppendInput :=
  (List.range 101).map (fun k => { role := "user", content := "", metadata := [], time := k + 1 })

/-- The first of those appended messages. -/
def exC2FirstMsg : Message :=
  { role := "user", content := "", timestamp := 1, metadata := [] }

/-- 101 appends against a fresh cache-down session: only the first append
(onto the empty loaded history) is ever flushed. -/
def exC2Down : MemState :=
  appendAll "t" exC2Inputs (create_session 7 "t" 0 { repo := [], cache := [], redisUp := false }).2

/-- An expired session (expiry 50, read at a later instant). -/
def exC3Sess : UserSession := mkSess [] 50

/-- State physically holding the expired session in both backends. -/
def exC3State : MemState :=
  { repo := [("t", exC3Sess)], cache := [("t", CacheEntry.full (toCached exC3Sess))],
    redisUp := true }

/-- create/append/read scenario, used cache-up versus cache-down. -/
def exC4Ops : List (Op × Nat) :=
  [(Op.create 1 "t", 0), (Op.append "t" "user" "hi" [], 1), (Op.history "t" none, 2)]

/-- A live empty session in the repository, cache empty, client up. -/
def exC5State : MemState :=
  { repo := [("t", mkSess [] 100)], cache := [], redisUp := true }

/-- User messages for the emotional-tone counterexample: three occurrences
of one positive word in a single message versus one negative word. -/
def exC7Msgs : List Message :=
  [{ role := "user", content := "great great great", timestamp := 0, metadata := [] },
   { role := "user", content := "hard", timestamp := 0, metadata := [] }]

/-- A session holding exactly one message. -/
def exC8State : MemState :=
  { repo := [("t", mkSess [exMsg] 100)], cache := [], redisUp := false }

/-- Ten assistant messages: above the threshold but with no user message in
the analysis window. -/
def exC10Hist : List Message :=
  List.replicate 10 { role := "assistant", content := "hello", timestamp := 0, metadata := [] }

/-- Session whose last 20 history entries contain no user message. -/
def exC10State : MemState :=
  { repo := [("t", mkSess exC10Hist 100)], cache := [], redisUp := true }

/-- Cache-down state holding one live empty session. -/
def exDownState : MemState :=
  { repo := [("t", mkSess [] 100)], cache := [], redisUp := false }

theorem aLookup_aInsert_self {α : Type} (k : String) (v : α) (m : List (String × α)) :
    aLookup k (aInsert k v m) = some v := by
  induction m with
  | nil => simp [aInsert, aLookup]
  | cons hd tl ih =>
    obtain ⟨k', v'⟩ := hd
    by_cases h : k' = k
    · simp [aInsert, h, aLookup]
    · simp [aInsert, h, aLookup, ih]

theorem aLookup_aInsert_ne {α : Type} {k k' : String} (h : k ≠ k') (v : α)
    (m : List (String × α)) : aLookup k' (aInsert k v m) = aLookup k' m := by
  induction m with
  | nil => simp [aInsert, aLookup, h]
  | cons hd tl ih =>
    obtain ⟨k0, v0⟩ := hd
    by_cases h0 : k0 = k
    · subst h0; simp [aInsert, aLookup, h]
    · simp [aInsert, h0, aLookup, ih]

theorem aLookup_eq_none {α : Type} {k : String} {m : List (String × α)}
    (h : k ∉ m.map Prod.fst) : aLookup k m = none := by
  induction m with
  | nil => rfl
  | cons hd tl ih =>
    obtain ⟨k', v'⟩ := hd
    simp only [List.map, List.mem_cons] at h
    push_neg at h
    have hne : ¬ k' = k := fun hh => h.1 hh.symm
    simp [aLookup, hne, ih h.2]

theorem aLookup_aErase_self {α : Type} {k : String} {m : List (String × α)}
    (hnd : (m.map Prod.fst).Nodup) : aLookup k (aErase k m) = none := by
  induction m with
  | nil => rfl
  | cons hd tl ih =>
    obtain ⟨k', v'⟩ := hd
    simp only [List.map, List.nodup_cons] at hnd
    by_cases h : k' = k
    · subst h
      simp [aErase, aLookup_eq_none hnd.1]
    · simp [aErase, h, aLookup, ih hnd.2]

theorem aLookup_isSome_mem {α : Type} {k : String} {m : List (String × α)}
    (h : (aLookup k m).isSome) : k ∈ m.map Prod.fst := by
  induction m with
  | nil => simp [aLookup] at h
  | cons hd tl ih =>
    obtain ⟨k', v'⟩ := hd
    simp only [List.map_cons, List.mem_cons]
    by_cases hk : k' = k
    · exact Or.inl hk.symm
    · simp only [aLookup, if_neg hk] at h
      exact Or.inr (ih h)

theorem dictUpdate_cons (a : Dict) (k : String) (v : Val) (b : Dict) :
    dictUpdate a ((k, v) :: b) = dictUpdate (aInsert k v a) b := rfl

theorem aLookup_dictUpdate_of_none {a b : Dict} {k : String}
    (h : aLookup k b = none) : aLookup k (dictUpdate a b) = aLookup k a := by
  induction b generalizing a with
  | nil => rfl
  | cons hd tl ih =>
    obtain ⟨k1, v1⟩ := hd
    by_cases hk : k1 = k
    · simp [aLookup, hk] at h
    · simp only [aLookup, if_neg hk] at h
      rw [dictUpdate_cons, ih h, aLookup_aInsert_ne hk]

theorem aLookup_dictUpdate_isSome {b : Dict} {k : String} (a : Dict) :
    (aLookup k (dictUpdate a b)).isSome ↔
      (aLookup k a).isSome ∨ (aLookup k b).isSome := by
  induction b generalizing a with
  | nil => simp [dictUpdate, aLookup]
  | cons hd tl ih =>
    obtain ⟨k1, v1⟩ := hd
    rw [dictUpdate_cons, ih]
    by_cases hk : k1 = k
    · subst hk
      simp [aLookup, aLookup_aInsert_self]
    · rw [aLookup_aInsert_ne hk]
      simp [aLookup, hk]

theorem lastN_of_le {α : Type} {n : Nat} {l : List α} (h : l.length ≤ n) :
    lastN n l = l := by
  simp [lastN, Nat.sub_eq_zero_of_le h]

theorem length_lastN_le {α : Type} (n : Nat) (l : List α) :
    (lastN n l).length ≤ n := by
  simp [lastN]
  omega

theorem trimHist_eq_lastN (l : List Message) :
    trimHist l = lastN maxConversationLength l := by
  unfold trimHist
  split
  · rfl
  · exact (lastN_of_le (by omega)).symm

theorem lastN_append {α : Type} (n : Nat) (l l' : List α) :
    lastN n (lastN n l ++ l') = lastN n (l ++ l') := by
  by_cases h : l.length ≤ n
  · rw [lastN_of_le h]
  · have h1 : l.length - n ≤ l.length := Nat.sub_le _ _
    unfold lastN
    rw [List.length_append, List.length_drop]
    have e1 : l.length - (l.length - n) + l'.length - n = l'.length := by omega
    rw [e1, List.length_append]
    have e2 : l.length + l'.length - n = l.length - n + l'.length := by omega
    rw [e2, ← List.drop_drop, List.drop_append_of_le_length h1]

theorem cacheSession_down {st : MemState} (h : st.redisUp = false)
    (tok : String) (s : UserSession) : cacheSession tok s st = st := by
  simp [cacheSession, h]

theorem cacheSession_none {st : MemState} {s : UserSession}
    (h : s.lastActivity = none) (tok : String) : cacheSession tok s st = st := by
  unfold cacheSession
  rw [h]
  split <;> rfl

theorem cacheSession_some {st : MemState} {s : UserSession} {t : Nat}
    (hredis : st.redisUp = true) (h : s.lastActivity = some t) (tok : String) :
    cacheSession tok s st =
      { st with cache := aInsert tok (CacheEntry.full (toCached s)) st.cache } := by
  simp [cacheSession, hredis, h]

theorem getCachedSession_down {st : MemState} (h : st.redisUp = false)
    (tok : String) (now : Nat) : getCachedSession tok now st = (none, st) := by
  simp [getCachedSession, h]

theorem addMessageToCache_down {st : MemState} (h : st.redisUp = false)
    (tok : String) (m : Message) : addMessageToCache tok m st = st := by
  simp [addMessageToCache, h]

theorem cacheSession_repo (tok : String) (s : UserSession) (st : MemState) :
    (cacheSession tok s st).repo = st.repo := by
  unfold cacheSession
  split
  · split <;> rfl
  · rfl

theorem cacheSession_redisUp (tok : String) (s : UserSession) (st : MemState) :
    (cacheSession tok s st).redisUp = st.redisUp := by
  unfold cacheSession
  split
  · split <;> rfl
  · rfl

theorem addMessageToCache_redisUp (tok : String) (m : Message) (st : MemState) :
    (addMessageToCache tok m st).redisUp = st.redisUp := by
  unfold addMessageToCache
  split <;> rfl

theorem getSessionL_down {st : MemState} (h : st.redisUp = false)
    (tok : String) (now : Nat) :
    getSessionL tok now st = ((refGetSession tok now st.repo).map Loaded.fromDb, st) := by
  cases hl : aLookup tok st.repo with
  | none => simp [getSessionL, refGetSession, getCachedSession, h, hl]
  | some s =>
    by_cases hv : s.expiresAt > now
    · simp [getSessionL, refGetSession, getCachedSession, h, hl, hv, cacheSession]
    · simp [getSessionL, refGetSession, getCachedSession, h, hl, hv]

theorem get_session_down {st : MemState} (h : st.redisUp = false)
    (tok : String) (now : Nat) :
    get_session tok now st = (refGetSession tok now st.repo, st) := by
  unfold get_session
  rw [getSessionL_down h]
  cases refGetSession tok now st.repo <;> simp [Loaded.session]

theorem getSessionL_hit {st : MemState} {tok : String} {s : UserSession} {now : Nat}
    (hredis : st.redisUp = true)
    (hc : aLookup tok st.cache = some (CacheEntry.full (toCached s)))
    (hv : now < s.expiresAt) :
    getSessionL tok now st = (some (Loaded.fromCache (ofCached tok (toCached s))), st) := by
  have hexp : ¬ (toCached s).expiresAt ≤ now := by
    simp [toCached]
    omega
  simp [getSessionL, getCachedSession, hredis, hc, hexp]

theorem getSessionL_miss {st : MemState} {tok : String} {s : UserSession} {now : Nat}
    (hm : aLookup tok st.cache = none ∨ st.redisUp = false)
    (hr : aLookup tok st.repo = some s) (hv : now < s.expiresAt) :
    getSessionL tok now st = (some (Loaded.fromDb s), cacheSession tok s st) := by
  have hv' : s.expiresAt > now := hv
  cases hredis : st.redisUp with
  | false =>
    rw [getSessionL_down hredis, cacheSession_down hredis]
    simp [refGetSession, hr, hv']
  | true =>
    rcases hm with hm | hm
    · simp [getSessionL, getCachedSession, hredis, hm, hr, hv']
    · rw [hm] at hredis
      cases hredis

theorem getSessionL_consistent {st : MemState} {tok : String} {s : UserSession}
    {now : Nat} (h : consistentAt st tok s) (hv : now < s.expiresAt) :
    ∃ l st', getSessionL tok now st = (some l, st') ∧ payloadEq l.session s ∧
      consistentAt st' tok s ∧ st'.repo = st.repo ∧ st'.redisUp = st.redisUp ∧
      (st' = st ∨
       st' = { st with cache := aInsert tok (CacheEntry.full (toCached s)) st.cache }) := by
  obtain ⟨hrepo, hcache⟩ := h
  rcases Bool.eq_false_or_eq_true st.redisUp with hredis | hredis
  swap
  · refine ⟨Loaded.fromDb s, st, ?_, ⟨rfl, rfl, rfl, rfl, rfl, rfl, rfl⟩, ⟨hrepo, ?_⟩,
      rfl, rfl, Or.inl rfl⟩
    · rw [getSessionL_miss (Or.inr hredis) hrepo hv, cacheSession_down hredis]
    · intro hru
      rw [hru] at hredis
      cases hredis
  · rcases hcache hredis with hnone | hfull
    · cases hla : s.lastActivity with
      | none =>
        refine ⟨Loaded.fromDb s, st, ?_, ⟨rfl, rfl, rfl, rfl, rfl, rfl, rfl⟩,
          ⟨hrepo, hcache⟩, rfl, rfl, Or.inl rfl⟩
        rw [getSessionL_miss (Or.inl hnone) hrepo hv, cacheSession_none hla]
      | some t =>
        have hcs : cacheSession tok s st =
            { st with cache := aInsert tok (CacheEntry.full (toCached s)) st.cache } :=
          cacheSession_some hredis hla tok
        refine ⟨Loaded.fromDb s, cacheSession tok s st,
          getSessionL_miss (Or.inl hnone) hrepo hv,
          ⟨rfl, rfl, rfl, rfl, rfl, rfl, rfl⟩, ⟨?_, ?_⟩, cacheSession_repo _ _ _,
          cacheSession_redisUp _ _ _, Or.inr hcs⟩
        · rw [hcs]
          exact hrepo
        · intro _
          rw [hcs]
          exact Or.inr (aLookup_aInsert_self _ _ _)
    · exact ⟨Loaded.fromCache (ofCached tok (toCached s)), st,
        getSessionL_hit hredis hfull hv, ⟨rfl, rfl, rfl, rfl, rfl, rfl, rfl⟩,
        ⟨hrepo, hcache⟩, rfl, rfl, Or.inl rfl⟩

theorem get_session_consistent {st : MemState} {tok : String} {s : UserSession}
    {now : Nat} (h : consistentAt st tok s) (hv : now < s.expiresAt) :
    ∃ u st', get_session tok now st = (some u, st') ∧ payloadEq u s ∧
      consistentAt st' tok s ∧ st'.repo = st.repo ∧ st'.redisUp = st.redisUp ∧
      (st' = st ∨
       st' = { st with cache := aInsert tok (CacheEntry.full (toCached s)) st.cache }) := by
  obtain ⟨l, st', heq, hpay, hcons, hrepo', hredis', hst⟩ := getSessionL_consistent h hv
  refine ⟨l.session, st', ?_, hpay, hcons, hrepo', hredis', hst⟩
  unfold get_session
  rw [heq]
  rfl

theorem analyze_skip {st : MemState} {tok : String} {s : UserSession} {now : Nat}
    (h : consistentAt st tok s) (hv : now < s.expiresAt)
    (hskip : s.conversationHistory.length < personalityAnalysisThreshold ∨
      userWindow s.conversationHistory = []) :
    (analyze_personality_adaptations tok now st).1 = s.personalityAdaptations ∧
    (analyze_personality_adaptations tok now st).2.repo = st.repo ∧
    (aLookup tok (analyze_personality_adaptations tok now st).2.cache =
        aLookup tok st.cache ∨
     aLookup tok (analyze_personality_adaptations tok now st).2.cache =
        some (CacheEntry.full (toCached s))) := by
  obtain ⟨l, st', heq, ⟨h1, h2, h3, h4, h5, h6, h7⟩, hcons', hrepo', hredis', hst⟩ :=
    getSessionL_consistent h hv
  have hop : analyze_personality_adaptations tok now st =
      (l.session.personalityAdaptations, st') := by
    unfold analyze_personality_adaptations
    rw [heq]
    by_cases hlen : l.session.conversationHistory.length < personalityAnalysisThreshold
    · simp [hlen]
    · rcases hskip with hl' | hwin
      · rw [h2] at hlen
        exact absurd hl' hlen
      · have hwin' : userWindow l.session.conversationHistory = [] := by rw [h2, hwin]
        simp [hlen, hwin']
  rw [hop]
  refine ⟨h5, hrepo', ?_⟩
  rcases hst with hst | hst
  · exact Or.inl (by rw [hst])
  · exact Or.inr (by rw [hst]; exact aLookup_aInsert_self _ _ _)

theorem analyze_value {st : MemState} {tok : String} {s : UserSession} {now : Nat}
    (h : consistentAt st tok s) (hv : now < s.expiresAt)
    (hlen : ¬ s.conversationHistory.length < personalityAnalysisThreshold)
    (hwin : userWindow s.conversationHistory ≠ []) :
    (analyze_personality_adaptations tok now st).1 =
      analyzeInteractionPatterns (userWindow s.conversationHistory) now := by
  obtain ⟨l, st', heq, ⟨h1, h2, h3, h4, h5, h6, h7⟩, hcons', hrepo', hredis', hst⟩ :=
    getSessionL_consistent h hv
  have hwe : (userWindow s.conversationHistory).isEmpty = false := by
    cases hwl : userWindow s.conversationHistory with
    | nil => exact absurd hwl hwin
    | cons a lw => rfl
  unfold analyze_personality_adaptations
  rw [heq]
  simp only [h2, hlen, hwe, if_false, Bool.false_eq_true, ite_false]
  split <;> rfl

theorem get_session_notFound {st : MemState} {tok : String} {now : Nat}
    (h : notFoundAt st tok now = true) : (get_session tok now st).1 = none := by
  simp only [notFoundAt, Bool.and_eq_true] at h
  obtain ⟨h1, h2⟩ := h
  have hrepo : ∀ s, aLookup tok st.repo = some s → ¬ s.expiresAt > now := by
    intro s hs
    simp [repoExpiredAt, hs] at h1
    omega
  rcases Bool.eq_false_or_eq_true st.redisUp with hredis | hredis
  · cases hc : aLookup tok st.cache with
    | none =>
      cases hl : aLookup tok st.repo with
      | none => simp [get_session, getSessionL, getCachedSession, hredis, hc, hl]
      | some s =>
        simp [get_session, getSessionL, getCachedSession, hredis, hc, hl, hrepo s hl]
    | some e =>
      cases e with
      | full c =>
        have hcexp : c.expiresAt ≤ now := by
          simpa [cacheExpiredAt, hc] using h2
        cases hl : aLookup tok st.repo with
        | none => simp [get_session, getSessionL, getCachedSession, hredis, hc, hl, hcexp]
        | some s =>
          simp [get_session, getSessionL, getCachedSession, hredis, hc, hl, hcexp,
            hrepo s hl]
      | histOnly hh =>
        simp [cacheExpiredAt, hc] at h2
  · rw [get_session_down hredis]
    cases hl : aLookup tok st.repo with
    | none => simp [refGetSession, hl]
    | some s => simp [refGetSession, hl, hrepo s hl]

/-- C1.  Read-your-writes fails in the code: after a single `appendMessage`
on a fresh cache-up session, the repository row holds the message once, but
the cached entry holds it twice — `add_conversation_message` first overwrites
the cache with the updated session (via `_cache_session`) and then merges the
same message into the cached history again (via `_add_message_to_cache`), so
a `getHistory` immediately after the mutation, served from the cache, shows
the new message twice rather than exactly once. -/
theorem C1_cache_duplicate_bug :
    (aLookup "t" exC1State.repo).map UserSession.conversationHistory = some [exMsg] ∧
    cacheHistory exC1State "t" = some [exMsg, exMsg] ∧
    (get_conversation_history "t" none 2 exC1State).1 = [exMsg, exMsg] := by
  decide

/-- C4 counterexample.  The same operation sequence (create, one append, one
`getHistory`) returns different results with the cache up versus the cache
down: the cache-up run reads the duplicated cached history, so the claimed
result equality between the two configurations is false. -/
theorem C4_cex :
    (runOps exC4Ops { repo := [], cache := [], redisUp := true }).1 =
      [OpOut.tok "t", OpOut.unit, OpOut.hist [exMsg, exMsg]] ∧
    (runOps exC4Ops { repo := [], cache := [], redisUp := false }).1 =
      [OpOut.tok "t", OpOut.unit, OpOut.hist [exMsg]] ∧
    (runOps exC4Ops { repo := [], cache := [], redisUp := true }).1 ≠
      (runOps exC4Ops { repo := [], cache := [], redisUp := false }).1 := by
  decide

/-- C7 counterexample.  With messages `"great great great"` and `"hard"`,
the claim's occurrence counts are P = 3 and N = 1, so the claim requires
`emotional_tone = "optimistic"` (3 > 2·1); the code counts each word at most
once per message (P' = 1, N' = 1) and yields `"neutral"`. -/
theorem C7_cex :
    specOccTotal positiveWords exC7Msgs = 3 ∧
    specOccTotal negativeWords exC7Msgs = 1 ∧
    3 > 2 * 1 ∧
    aLookup "emotional_tone" (analyzeInteractionPatterns exC7Msgs 0) =
      some (Val.s "neutral") ∧
    Val.s "neutral" ≠ Val.s "optimistic" := by
  decide

/-- C8 counterexample.  `get_conversation_history` with an explicit limit of
0 returns the entire stored history (Python's `if limit:` treats 0 as
unspecified), not the empty sequence the claim requires. -/
theorem C8_cex :
    (get_conversation_history "t" (some 0) 1 exC8State).1 = [exMsg] ∧
    ([exMsg] : List Message) ≠ [] := by
  decide

set_option maxRecDepth 10000 in
/-- C2.  The history bound fails in the code: after 101 appends to a fresh
cache-down session, the repository history — and hence `getHistory` — holds
only the first appended message, not the most recent 100 in order.  Only the
first append reassigns a fresh list (the `or []` fallback on the empty
loaded history); every later append mutates the loaded plain-JSON list in
place and reassigns the same object, which the flush skips, so the appended
messages never reach the repository and the `[-100:]` trim is never even
reached.  (With the cache up, the duplicated cache write corrupts the
cache-served history instead.) -/
theorem C2_history_bound_bug :
    (aLookup "t" exC2Down.repo).map UserSession.conversationHistory =
      some [exC2FirstMsg] ∧
    (get_conversation_history "t" none 200 exC2Down).1 = [exC2FirstMsg] ∧
    [exC2FirstMsg] ≠ lastN maxConversationLength (msgsOf exC2Inputs) := by
  decide

/-- C3.  Expiry enforcement with purge: if every copy of the session for
`tok` (in the repository and, as a full entry, in the cache) has
`expiresAt ≤ now`, then `get_session` reports not-found; and when the cache
client is up, the expired cache entry (if any) has been deleted by the read.
The `Nodup` hypothesis states that cache keys are unique, as they are in a
real key-value store. -/
theorem C3_expiry_enforcement (st : MemState) (tok : String) (now : Nat)
    (hnd : (st.cache.map Prod.fst).Nodup)
    (h1 : repoExpiredAt st.repo tok now = true)
    (h2 : cacheExpiredAt st.cache tok now = true) :
    (get_session tok now st).1 = none ∧
    (st.redisUp = true → aLookup tok (get_session tok now st).2.cache = none) := by
  have hrepo : ∀ s, aLookup tok st.repo = some s → ¬ s.expiresAt > now := by
    intro s hs
    simp [repoExpiredAt, hs] at h1
    omega
  rcases Bool.eq_false_or_eq_true st.redisUp with hredis | hredis
  · cases hc : aLookup tok st.cache with
    | none =>
      have heq : get_session tok now st = (none, st) := by
        cases hl : aLookup tok st.repo with
        | none => simp [get_session, getSessionL, getCachedSession, hredis, hc, hl]
        | some s =>
          simp [get_session, getSessionL, getCachedSession, hredis, hc, hl, hrepo s hl]
      rw [heq]
      exact ⟨rfl, fun _ => hc⟩
    | some e =>
      cases e with
      | full c =>
        have hcexp : c.expiresAt ≤ now := by
          simpa [cacheExpiredAt, hc] using h2
        have heq : get_session tok now st =
            (none, { st with cache := aErase tok st.cache }) := by
          cases hl : aLookup tok st.repo with
          | none => simp [get_session, getSessionL, getCachedSession, hredis, hc, hl, hcexp]
          | some s =>
            simp [get_session, getSessionL, getCachedSession, hredis, hc, hl, hcexp,
              hrepo s hl]
        rw [heq]
        exact ⟨rfl, fun _ => aLookup_aErase_self hnd⟩
      | histOnly hh =>
        simp [cacheExpiredAt, hc] at h2
  · have heq : (get_session tok now st).1 = none := by
      rw [get_session_down hredis]
      cases hl : aLookup tok st.repo with
      | none => simp [refGetSession, hl]
      | some s => simp [refGetSession, hl, hrepo s hl]
    refine ⟨heq, fun hru => ?_⟩
    rw [hru] at hredis
    cases hredis

/-- C3 witness: a session expired at 50, physically present in both
backends, read at time 200: not found, and purged from the cache. -/
theorem C3_expiry_witness :
    (get_session "t" 200 exC3State).1 = none ∧
    (exC3State.redisUp = true →
      aLookup "t" (get_session "t" 200 exC3State).2.cache = none) :=
  C3_expiry_enforcement exC3State "t" 200 (by decide) (by decide) (by decide)

/-- C4 amended.  With the cache client unavailable (or, equivalently, every
cache call failing and being absorbed), every operation of the store runs to
completion, never touches the cache, and its result and repository effect
coincide with the cache-free reference semantics `refRunOp` over the
repository alone.  (The original claim's further assertion that the results
equal those of the cache-available run is refuted by `C4_cex`.) -/
theorem C4_amended_cache_down (op : Op) (now : Nat) (st : MemState)
    (h : st.redisUp = false) :
    runOp op now st =
      ((refRunOp op now st.repo).1, { st with repo := (refRunOp op now st.repo).2 }) := by
  obtain ⟨r0, c0, ru0⟩ := st
  change ru0 = false at h
  subst h
  have h : (MemState.mk r0 c0 false).redisUp = false := rfl
  cases op with
  | create u t =>
    simp [runOp, refRunOp, create_session, cacheSession, h]
  | getSess t =>
    simp [runOp, refRunOp, get_session_down h]
  | append t r c m =>
    simp only [runOp, refRunOp]
    unfold add_conversation_message
    rw [getSessionL_down h]
    cases hg : refGetSession t now r0 with
    | none => simp [addMessageToCache, h]
    | some s => simp [Loaded.session, cacheSession, addMessageToCache, h]
  | history t l =>
    simp only [runOp, refRunOp]
    unfold get_conversation_history
    rw [get_session_down h]
    cases hg : refGetSession t now r0 with
    | none => simp
    | some s =>
      cases l with
      | none => simp
      | some k =>
        by_cases hk : k = 0
        · simp [hk]
        · simp [hk]
  | updateProgress t p =>
    simp only [runOp, refRunOp]
    unfold update_learning_progress
    rw [getSessionL_down h]
    cases hg : refGetSession t now r0 with
    | none => simp
    | some s => simp [Loaded.session, cacheSession, h]
  | updateContext t c =>
    simp only [runOp, refRunOp]
    unfold update_story_context
    rw [getSessionL_down h]
    cases hg : refGetSession t now r0 with
    | none => simp
    | some s => simp [Loaded.session, cacheSession, h]
  | analyze t =>
    simp only [runOp, refRunOp]
    unfold analyze_personality_adaptations
    rw [getSessionL_down h]
    cases hg : refGetSession t now r0 with
    | none => simp
    | some s =>
      by_cases h1 : s.conversationHistory.length < personalityAnalysisThreshold
      · simp [Loaded.session, h1]
      · by_cases h2 : (userWindow s.conversationHistory).isEmpty
        · simp [Loaded.session, h1, h2]
        · by_cases h3 :
            (analyzeInteractionPatterns (userWindow s.conversationHistory) now).isEmpty
          · simp [Loaded.session, h1, h2, h3]
          · simp [Loaded.session, h1, h2, h3, cacheSession, h]
  | recommend t =>
    simp only [runOp, refRunOp]
    unfold get_personalized_recommendations
    rw [get_session_down h]
    cases hg : refGetSession t now r0 with
    | none => simp
    | some s => simp

/-- C4 amended witness: a cache-down `getHistory` against a stored session
equals the reference read over the repository alone. -/
theorem C4_amended_witness :
    runOp (Op.history "t" none) 5 exDownState =
      ((refRunOp (Op.history "t" none) 5 exDownState.repo).1,
       { exDownState with repo := (refRunOp (Op.history "t" none) 5 exDownState.repo).2 }) :=
  C4_amended_cache_down (Op.history "t" none) 5 exDownState (by decide)

/-- C5.  Merge semantics fail to persist in the code: on a fresh cache-down
session, the first `updateLearningProgress` flushes (the `or {}` fallback
builds a fresh dict over the empty stored mapping), but the second performs
an in-place `dict.update` on the now non-empty loaded dict and reassigns the
same object, which the flush skips — the repository retains only the first
payload, and with the cache up the second update is served a transient
cache-reconstructed session whose commit persists nothing either.  The
wholesale `updateStoryContext` replacement, by contrast, does persist: two
consecutive calls leave exactly the second payload. -/
theorem C5_merge_not_persisted_bug :
    (aLookup "t" (update_learning_progress "t" [("b", Val.i 2)] 2
        (update_learning_progress "t" [("a", Val.i 1)] 1 exDownState)).repo).map
      UserSession.learningProgress = some [("a", Val.i 1)] ∧
    (aLookup "t" (update_learning_progress "t" [("b", Val.i 2)] 2
        (update_learning_progress "t" [("a", Val.i 1)] 1 exDownState)).repo).map
      (fun s => aLookup "b" s.learningProgress) = some none ∧
    (∀ k ∈ ([("a", Val.i 1)] : Dict).map Prod.fst, aLookup k [("b", Val.i 2)] = none) ∧
    (aLookup "t" (update_story_context "t" [("y", Val.i 2)] 2
        (update_story_context "t" [("x", Val.i 1)] 1 exDownState)).repo).map
      UserSession.currentStoryContext = some [("y", Val.i 2)] := by
  decide

/-- C6.  Analyzer threshold skip: on a live session whose total history
(counting both roles) has fewer than `PERSONALITY_THRESHOLD = 10` entries,
`analyzePersonality` returns the stored adaptations unchanged, leaves the
repository untouched, and the cache entry for the token is either untouched
or a fresh copy of the same session — the stored adaptations are never
modified or zeroed. -/
theorem C6_threshold_skip (st : MemState) (tok : String) (s : UserSession)
    (now : Nat) (h : consistentAt st tok s) (hv : now < s.expiresAt)
    (hlen : s.conversationHistory.length < personalityAnalysisThreshold) :
    (analyze_personality_adaptations tok now st).1 = s.personalityAdaptations ∧
    (analyze_personality_adaptations tok now st).2.repo = st.repo ∧
    (aLookup tok (analyze_personality_adaptations tok now st).2.cache =
        aLookup tok st.cache ∨
     aLookup tok (analyze_personality_adaptations tok now st).2.cache =
        some (CacheEntry.full (toCached s))) :=
  analyze_skip h hv (Or.inl hlen)

/-- C6 witness: a live session with an empty history (0 < 10): the analysis
is skipped and the state is preserved. -/
theorem C6_witness :
    (analyze_personality_adaptations "t" 1 exC5State).1 =
      (mkSess [] 100).personalityAdaptations ∧
    (analyze_personality_adaptations "t" 1 exC5State).2.repo = exC5State.repo ∧
    (aLookup "t" (analyze_personality_adaptations "t" 1 exC5State).2.cache =
        aLookup "t" exC5State.cache ∨
     aLookup "t" (analyze_personality_adaptations "t" 1 exC5State).2.cache =
        some (CacheEntry.full (toCached (mkSess [] 100)))) :=
  C6_threshold_skip exC5State "t" (mkSess [] 100) 1
    (by constructor <;> decide) (by decide) (by decide)

/-- C10.  When the history is at or above the threshold but the most recent
20 entries contain no `"user"` message, `analyzePersonality` returns the
stored adaptations unchanged and writes nothing (repository untouched; cache
entry untouched or a fresh copy of the same session); and whenever the user
window is non-empty, the returned record is computed from exactly the
`"user"`-role messages of the last 20 history entries. -/
theorem C10_no_user_window (st : MemState) (tok : String) (s : UserSession)
    (now : Nat) (h : consistentAt st tok s) (hv : now < s.expiresAt)
    (h10 : personalityAnalysisThreshold ≤ s.conversationHistory.length) :
    ((∀ m ∈ lastN 20 s.conversationHistory, m.role ≠ "user") →
      (analyze_personality_adaptations tok now st).1 = s.personalityAdaptations ∧
      (analyze_personality_adaptations tok now st).2.repo = st.repo ∧
      (aLookup tok (analyze_personality_adaptations tok now st).2.cache =
          aLookup tok st.cache ∨
       aLookup tok (analyze_personality_adaptations tok now st).2.cache =
          some (CacheEntry.full (toCached s)))) ∧
    (userWindow s.conversationHistory ≠ [] →
      (analyze_personality_adaptations tok now st).1 =
        analyzeInteractionPatterns (userWindow s.conversationHistory) now) := by
  constructor
  · intro hnone
    have hwin : userWindow s.conversationHistory = [] := by
      unfold userWindow
      rw [List.filter_eq_nil_iff]
      intro m hm
      simpa using hnone m hm
    exact analyze_skip h hv (Or.inr hwin)
  · intro hwin
    exact analyze_value h hv (by omega) hwin

/-- C10 witness: ten assistant messages — above the threshold, no user
message in the window — the analysis is skipped and the state preserved. -/
theorem C10_witness :
    ((∀ m ∈ lastN 20 (mkSess exC10Hist 100).conversationHistory, m.role ≠ "user") →
      (analyze_personality_adaptations "t" 1 exC10State).1 =
        (mkSess exC10Hist 100).personalityAdaptations ∧
      (analyze_personality_adaptations "t" 1 exC10State).2.repo = exC10State.repo ∧
      (aLookup "t" (analyze_personality_adaptations "t" 1 exC10State).2.cache =
          aLookup "t" exC10State.cache ∨
       aLookup "t" (analyze_personality_adaptations "t" 1 exC10State).2.cache =
          some (CacheEntry.full (toCached (mkSess exC10Hist 100))))) ∧
    (userWindow (mkSess exC10Hist 100).conversationHistory ≠ [] →
      (analyze_personality_adaptations "t" 1 exC10State).1 =
        analyzeInteractionPatterns (userWindow (mkSess exC10Hist 100).conversationHistory) 1) :=
  C10_no_user_window exC10State "t" (mkSess exC10Hist 100) 1
    (by constructor <;> decide) (by decide) (by decide)

/-- C8 amended.  `getHistory` limit semantics as implemented: a *positive*
limit returns exactly the most recent `limit` stored entries (a suffix of the
stored history, of length `limit` whenever the history is at least that
long, and the whole history when `limit` exceeds it); a limit of `0` is
treated as unspecified (Python `if limit:`) and returns the entire history,
as does an absent limit; and an unknown or expired token yields the empty
sequence without error.  (The original claim's `limit = 0 → empty` is
refuted by `C8_cex`.) -/
theorem C8_amended_limit (st : MemState) (tok tok2 : String) (s : UserSession)
    (now limit : Nat) (h : consistentAt st tok s) (hv : now < s.expiresAt)
    (hnf : notFoundAt st tok2 now = true) :
    (get_conversation_history tok (some limit) now st).1 =
      (if limit = 0 then s.conversationHistory
       else lastN limit s.conversationHistory) ∧
    (get_conversation_history tok none now st).1 = s.conversationHistory ∧
    (limit ≠ 0 → limit ≤ s.conversationHistory.length →
      (get_conversation_history tok (some limit) now st).1.length = limit) ∧
    (s.conversationHistory.length ≤ limit →
      (get_conversation_history tok (some limit) now st).1 =
        s.conversationHistory) ∧
    (get_conversation_history tok2 (some limit) now st).1 = [] ∧
    (get_conversation_history tok2 none now st).1 = [] := by
  obtain ⟨u, st', heq, ⟨h1, h2, h3, h4, h5, h6, h7⟩, _, _, _, _⟩ :=
    get_session_consistent h hv
  have hval : ∀ l, (get_conversation_history tok l now st).1 =
      (match l with
       | some k => if k ≠ 0 then lastN k s.conversationHistory else s.conversationHistory
       | none => s.conversationHistory) := by
    intro l
    unfold get_conversation_history
    rw [heq]
    cases l with
    | none => simp [h2]
    | some k =>
      by_cases hk : k = 0
      · simp [hk, h2]
      · simp [hk, h2]
  have hnone2 : ∀ l, (get_conversation_history tok2 l now st).1 = [] := by
    intro l
    have hn : (get_session tok2 now st).1 = none := get_session_notFound hnf
    unfold get_conversation_history
    cases hres : get_session tok2 now st with
    | mk o st2 =>
      rw [hres] at hn
      simp only at hn
      subst hn
      rfl
  refine ⟨?_, by rw [hval none], ?_, ?_, hnone2 (some limit), hnone2 none⟩
  · rw [hval (some limit)]
    by_cases hk : limit = 0
    · simp [hk]
    · simp [hk]
  · intro hk hle
    rw [hval (some limit)]
    simp only [hk, if_true, lastN, List.length_drop, if_pos]
    simp [hk]
    omega
  · intro hle
    rw [hval (some limit)]
    by_cases hk : limit = 0
    · simp [hk]
    · simp [hk, lastN_of_le hle]

/-- C8 amended witness: a stored one-message history, read with limits 1
(positive), 0, and none, plus the unknown token `"u"`. -/
theorem C8_amended_witness :
    (get_conversation_history "t" (some 1) 5 exC8State).1 =
      (if 1 = 0 then (mkSess [exMsg] 100).conversationHistory
       else lastN 1 (mkSess [exMsg] 100).conversationHistory) ∧
    (get_conversation_history "t" none 5 exC8State).1 =
      (mkSess [exMsg] 100).conversationHistory ∧
    (1 ≠ 0 → 1 ≤ (mkSess [exMsg] 100).conversationHistory.length →
      (get_conversation_history "t" (some 1) 5 exC8State).1.length = 1) ∧
    ((mkSess [exMsg] 100).conversationHistory.length ≤ 1 →
      (get_conversation_history "t" (some 1) 5 exC8State).1 =
        (mkSess [exMsg] 100).conversationHistory) ∧
    (get_conversation_history "u" (some 1) 5 exC8State).1 = [] ∧
    (get_conversation_history "u" none 5 exC8State).1 = [] :=
  C8_amended_limit exC8State "t" "u" (mkSess [exMsg] 100) 5 1
    (by constructor <;> decide) (by decide) (by decide)

theorem aLookup_tone (x y z : Val) (rest : Dict) :
    aLookup "emotional_tone" (("communication_preference", x) ::
      ("engagement_style", y) :: ("emotional_tone", z) :: rest) = some z := by
  simp [aLookup]

/-- C7 amended.  Emotional-tone heuristic as implemented: with P the number
of (message, word) pairs such that the positive word occurs case-insensitively
as a substring of the message (each word counted at most once per message,
not each occurrence), and N likewise for the negative words, the resulting
`emotional_tone` over a non-empty analyzed window is `"optimistic"` iff
P > 2·N, `"needs_support"` iff N > 2·P, and `"neutral"` otherwise.
(Occurrence-counting, as the original claim reads, is refuted by `C7_cex`.) -/
theorem C7_amended_tone (msgs : List Message) (now : Nat) (h : msgs ≠ []) :
    (aLookup "emotional_tone" (analyzeInteractionPatterns msgs now) =
        some (Val.s "optimistic") ↔
      wordSetCount positiveWords msgs > 2 * wordSetCount negativeWords msgs) ∧
    (aLookup "emotional_tone" (analyzeInteractionPatterns msgs now) =
        some (Val.s "needs_support") ↔
      wordSetCount negativeWords msgs > 2 * wordSetCount positiveWords msgs) ∧
    (aLookup "emotional_tone" (analyzeInteractionPatterns msgs now) =
        some (Val.s "neutral") ↔
      (¬ wordSetCount positiveWords msgs > 2 * wordSetCount negativeWords msgs ∧
       ¬ wordSetCount negativeWords msgs > 2 * wordSetCount positiveWords msgs)) := by
  have hne : msgs.isEmpty = false := by
    cases msgs with
    | nil => exact absurd rfl h
    | cons a l => rfl
  unfold analyzeInteractionPatterns
  simp only [hne, Bool.false_eq_true, if_false, ite_false, List.cons_append,
    List.nil_append, aLookup_tone]
  by_cases h1 : wordSetCount positiveWords msgs > wordSetCount negativeWords msgs * 2
  · by_cases h2 : wordSetCount negativeWords msgs > wordSetCount positiveWords msgs * 2
    · refine ⟨?_, ?_, ?_⟩ <;> simp [h1, h2] <;> omega
    · refine ⟨?_, ?_, ?_⟩ <;> simp [h1, h2] <;> omega
  · by_cases h2 : wordSetCount negativeWords msgs > wordSetCount positiveWords msgs * 2
    · refine ⟨?_, ?_, ?_⟩ <;> simp [h1, h2] <;> omega
    · refine ⟨?_, ?_, ?_⟩ <;> simp [h1, h2] <;> omega

/-- C7 amended witness at the concrete window of `C7_cex`: one message
contains a positive word (counted once), one a negative word, so the tone is
`"neutral"` and both strict comparisons fail. -/
theorem C7_amended_witness :
    (aLookup "emotional_tone" (analyzeInteractionPatterns exC7Msgs 0) =
        some (Val.s "optimistic") ↔
      wordSetCount positiveWords exC7Msgs > 2 * wordSetCount negativeWords exC7Msgs) ∧
    (aLookup "emotional_tone" (analyzeInteractionPatterns exC7Msgs 0) =
        some (Val.s "needs_support") ↔
      wordSetCount negativeWords exC7Msgs > 2 * wordSetCount positiveWords exC7Msgs) ∧
    (aLookup "emotional_tone" (analyzeInteractionPatterns exC7Msgs 0) =
        some (Val.s "neutral") ↔
      (¬ wordSetCount positiveWords exC7Msgs > 2 * wordSetCount negativeWords exC7Msgs ∧
       ¬ wordSetCount negativeWords exC7Msgs > 2 * wordSetCount positiveWords exC7Msgs)) :=
  C7_amended_tone exC7Msgs 0 (by decide)

end Minerva
